import Mathlib

/-!
Shallow embedding of the Chandrayaan craft state machine
(repository souravsaraf123/chandrayaan-assessment).

The final implementation lives in `src/unnamed/part_001` (class `Chayndrayan`
with fields `initialPosition`, `initialDirection`, `currentPosition`,
`currentDirection`, `lastXYDirection`, a constructor and a `move` method over
command lists).  An earlier evolution step of the same class, whose `move`
handles only `f`/`b` and shares one branch per axis without sign negation,
lives in `src/main.ts` (lines 32-77); it is embedded as `ChayndrayanMain`.

TypeScript `number` coordinates are embedded as `Int` (the spec fixes integer
coordinates, unbounded, possibly negative).  The TS enums `Direction` and
`Commands` become inductive types; the TS subtype
`XYDirection = Exclude<Direction, Up | Down>` becomes the predicate
`isXYDirection`.  `Array.prototype.indexOf` (first index or -1) is embedded
by `indexOfDir`, and the JS `%` on the always-nonnegative operand
`currentIndex + step + 4` coincides with `Int.emod`.
-/

namespace Chandrayaan

/-- The `Position` interface: three integer coordinates x, y, z. -/
structure Position where
  x : Int
  y : Int
  z : Int
deriving DecidableEq

/-- The `Direction` enum: six facing values. -/
inductive Direction where
  | North
  | South
  | East
  | West
  | Up
  | Down
deriving DecidableEq

/-- The `Commands` enum: six command symbols. -/
inductive Commands where
  | f
  | b
  | l
  | r
  | u
  | d
deriving DecidableEq

/-- Membership in the TS subtype `XYDirection = Exclude<Direction, Up | Down>`. -/
def isXYDirection : Direction → Bool
  | .Up => false
  | .Down => false
  | _ => true

/-- The craft state of the final implementation (`src/unnamed/part_001`):
initial snapshot, current state, and the auxiliary last horizontal facing. -/
structure Chayndrayan where
  initialPosition : Position
  initialDirection : Direction
  currentPosition : Position
  currentDirection : Direction
  lastXYDirection : Direction
deriving DecidableEq

/-- The constructor of `Chayndrayan` (`src/unnamed/part_001` lines 104-123):
optional position (default (0,0,0)) and direction (default North); current
state is a copy of the initial state; `lastXYDirection` is seeded to North
when the starting direction is Up or Down, otherwise to the direction itself. -/
def Chayndrayan.construct (inputPosition : Option Position)
    (inputDirection : Option Direction) : Chayndrayan :=
  let initialPosition := inputPosition.getD ⟨0, 0, 0⟩
  let initialDirection := inputDirection.getD .North
  { initialPosition := initialPosition
    initialDirection := initialDirection
    currentPosition := initialPosition
    currentDirection := initialDirection
    lastXYDirection :=
      if initialDirection = .Up ∨ initialDirection = .Down then .North
      else initialDirection }

/-- The clockwise horizontal cycle used by the turn handler. -/
def clockWiseDirections : List Direction := [.North, .East, .South, .West]

/-- TS `Array.prototype.indexOf` on `clockWiseDirections`: first index of the
direction, or -1 when it is absent (i.e. for Up/Down). -/
def indexOfDir (d : Direction) : Int :=
  match clockWiseDirections.findIdx? (fun e => e == d) with
  | some i => (i : Int)
  | none => -1

/-- One iteration of the loop body of `Chayndrayan.move`
(`src/unnamed/part_001` lines 127-191): three command-group guards applied in
sequence (forward/backward, left/right, up/down). -/
def Chayndrayan.applyCommand (ch : Chayndrayan) (c : Commands) : Chayndrayan :=
  -- handle forward and backward movement
  let ch :=
    if c = .f ∨ c = .b then
      let delta : Int := if c = .f then 1 else -1
      let p := ch.currentPosition
      let p :=
        if ch.currentDirection = .North then { p with y := p.y + delta }
        else if ch.currentDirection = .South then { p with y := p.y - delta }
        else if ch.currentDirection = .East then { p with x := p.x + delta }
        else if ch.currentDirection = .West then { p with x := p.x - delta }
        else if ch.currentDirection = .Up then { p with z := p.z + delta }
        else if ch.currentDirection = .Down then { p with z := p.z - delta }
        else p
      { ch with currentPosition := p }
    else ch
  -- handle left and right turn
  let ch :=
    if c = .l ∨ c = .r then
      let step : Int := if c = .r then 1 else -1
      let currentIndex := indexOfDir ch.lastXYDirection
      let updatedIndex :=
        (currentIndex + step + (clockWiseDirections.length : Int)) %
          (clockWiseDirections.length : Int)
      let newDir := clockWiseDirections.getD updatedIndex.toNat .North
      { ch with lastXYDirection := newDir, currentDirection := newDir }
    else ch
  -- handle up and down
  if c = .u ∨ c = .d then
    { ch with currentDirection := if c = .u then .Up else .Down }
  else ch

/-- `Chayndrayan.move`: left-to-right fold of the loop body over the command
list. -/
def Chayndrayan.move (ch : Chayndrayan) (commands : List Commands) : Chayndrayan :=
  commands.foldl Chayndrayan.applyCommand ch

theorem Chayndrayan.move_cons (ch : Chayndrayan) (c : Commands) (cs : List Commands) :
    ch.move (c :: cs) = (ch.applyCommand c).move cs := rfl

/-- The earlier craft state from `src/main.ts` (no `lastXYDirection` field). -/
structure ChayndrayanMain where
  initialPosition : Position
  initialDirection : Direction
  currentPosition : Position
  currentDirection : Direction
deriving DecidableEq

/-- The constructor of the `src/main.ts` class (lines 40-49). -/
def ChayndrayanMain.construct (inputPosition : Option Position)
    (inputDirection : Option Direction) : ChayndrayanMain :=
  let initialPosition := inputPosition.getD ⟨0, 0, 0⟩
  let initialDirection := inputDirection.getD .North
  { initialPosition := initialPosition
    initialDirection := initialDirection
    currentPosition := initialPosition
    currentDirection := initialDirection }

/-- One iteration of the loop body of the `src/main.ts` `move` (lines 53-75):
only `f`/`b` are handled, and each axis shares a single branch for both of its
directions (North and South both do `y += delta`, with no sign negation). -/
def ChayndrayanMain.applyCommand (ch : ChayndrayanMain) (c : Commands) : ChayndrayanMain :=
  if c = .f ∨ c = .b then
    let delta : Int := if c = .f then 1 else -1
    let p := ch.currentPosition
    let p :=
      if ch.currentDirection = .North ∨ ch.currentDirection = .South then
        { p with y := p.y + delta }
      else if ch.currentDirection = .East ∨ ch.currentDirection = .West then
        { p with x := p.x + delta }
      else if ch.currentDirection = .Up ∨ ch.currentDirection = .Down then
        { p with z := p.z + delta }
      else p
    { ch with currentPosition := p }
  else ch

/-- The `src/main.ts` `move`: fold of its loop body over the command list. -/
def ChayndrayanMain.move (ch : ChayndrayanMain) (commands : List Commands) : ChayndrayanMain :=
  commands.foldl ChayndrayanMain.applyCommand ch

/-- C1: from every craft state, a forward command adds +1 along the axis
implied by the current facing (North→+y, South→−y, East→+x, West→−x, Up→+z,
Down→−z) and a backward command applies delta −1 on the same axis (the exact
inverse of forward); exactly one coordinate axis changes (the record update
touches a single field), and the facing and last horizontal facing are
unchanged. -/
theorem C1_forward_backward_axis (ch : Chayndrayan) :
    (ch.applyCommand .f).currentDirection = ch.currentDirection ∧
    (ch.applyCommand .b).currentDirection = ch.currentDirection ∧
    (ch.applyCommand .f).lastXYDirection = ch.lastXYDirection ∧
    (ch.applyCommand .b).lastXYDirection = ch.lastXYDirection ∧
    (ch.applyCommand .f).currentPosition =
      (match ch.currentDirection with
       | .North => { ch.currentPosition with y := ch.currentPosition.y + 1 }
       | .South => { ch.currentPosition with y := ch.currentPosition.y - 1 }
       | .East  => { ch.currentPosition with x := ch.currentPosition.x + 1 }
       | .West  => { ch.currentPosition with x := ch.currentPosition.x - 1 }
       | .Up    => { ch.currentPosition with z := ch.currentPosition.z + 1 }
       | .Down  => { ch.currentPosition with z := ch.currentPosition.z - 1 }) ∧
    (ch.applyCommand .b).currentPosition =
      (match ch.currentDirection with
       | .North => { ch.currentPosition with y := ch.currentPosition.y - 1 }
       | .South => { ch.currentPosition with y := ch.currentPosition.y + 1 }
       | .East  => { ch.currentPosition with x := ch.currentPosition.x - 1 }
       | .West  => { ch.currentPosition with x := ch.currentPosition.x + 1 }
       | .Up    => { ch.currentPosition with z := ch.currentPosition.z - 1 }
       | .Down  => { ch.currentPosition with z := ch.currentPosition.z + 1 }) := by
  obtain ⟨ip, idir, ⟨px, py, pz⟩, cd, lx⟩ := ch
  cases cd <;>
    simp [Chayndrayan.applyCommand, Position.mk.injEq] <;> omega

/-- C3: constructing at (0,0,0) facing North and applying [f,r,u,b,l] yields
position (0,1,-1) and facing North. -/
theorem C3_example_scenario :
    ((Chayndrayan.construct (some ⟨0, 0, 0⟩) (some .North)).move
        [.f, .r, .u, .b, .l]).currentPosition = ⟨0, 1, -1⟩ ∧
    ((Chayndrayan.construct (some ⟨0, 0, 0⟩) (some .North)).move
        [.f, .r, .u, .b, .l]).currentDirection = .North := by
  decide

/-- C4: construction with no arguments yields current position (0,0,0) and
current facing North; construction with arguments yields current state equal
to the supplied position and facing; `lastXYDirection` is seeded to North when
the starting facing is Up or Down and to the starting facing otherwise. -/
theorem C4_construction_contract (p : Position) (d : Direction) :
    (Chayndrayan.construct none none).currentPosition = ⟨0, 0, 0⟩ ∧
    (Chayndrayan.construct none none).currentDirection = .North ∧
    (Chayndrayan.construct none none).lastXYDirection = .North ∧
    (Chayndrayan.construct (some p) (some d)).currentPosition = p ∧
    (Chayndrayan.construct (some p) (some d)).currentDirection = d ∧
    (Chayndrayan.construct (some p) (some d)).lastXYDirection =
      (if d = .Up ∨ d = .Down then .North else d) := by
  exact ⟨rfl, rfl, rfl, rfl, rfl, rfl⟩

/-- C5: from every craft state, pitch-up sets the current facing to Up and
pitch-down sets it to Down, unconditionally; `lastXYDirection` and the
position are unchanged by both. -/
theorem C5_pitch_semantics (ch : Chayndrayan) :
    (ch.applyCommand .u).currentDirection = .Up ∧
    (ch.applyCommand .d).currentDirection = .Down ∧
    (ch.applyCommand .u).lastXYDirection = ch.lastXYDirection ∧
    (ch.applyCommand .d).lastXYDirection = ch.lastXYDirection ∧
    (ch.applyCommand .u).currentPosition = ch.currentPosition ∧
    (ch.applyCommand .d).currentPosition = ch.currentPosition := by
  exact ⟨rfl, rfl, rfl, rfl, rfl, rfl⟩

/-- C7: from every craft state, applying [f, b] returns the craft to its prior
position with facing (and last horizontal facing) unchanged. -/
theorem C7_forward_backward_inverse (ch : Chayndrayan) :
    (ch.move [.f, .b]).currentPosition = ch.currentPosition ∧
    (ch.move [.f, .b]).currentDirection = ch.currentDirection ∧
    (ch.move [.f, .b]).lastXYDirection = ch.lastXYDirection := by
  obtain ⟨ip, idir, ⟨px, py, pz⟩, cd, lx⟩ := ch
  cases cd <;>
    simp [Chayndrayan.move, Chayndrayan.applyCommand, Position.mk.injEq]

/-- C2: from every craft state whose last horizontal facing is horizontal (as
the TS type `XYDirection` guarantees), turn-right rotates `lastXYDirection`
one step forward in the cycle [North, East, South, West] (+1 index mod 4) and
turn-left one step backward (−1 index mod 4), both commands then set the
current facing equal to the new `lastXYDirection`, the position is unchanged,
and the resulting facing is horizontal — so a turn issued while facing Up or
Down always exits the vertical facing. -/
theorem C2_turn_semantics (ch : Chayndrayan)
    (h : isXYDirection ch.lastXYDirection = true) :
    (ch.applyCommand .r).lastXYDirection =
      (match ch.lastXYDirection with
       | .North => .East
       | .East => .South
       | .South => .West
       | .West => .North
       | d => d) ∧
    (ch.applyCommand .l).lastXYDirection =
      (match ch.lastXYDirection with
       | .North => .West
       | .West => .South
       | .South => .East
       | .East => .North
       | d => d) ∧
    (ch.applyCommand .r).currentDirection = (ch.applyCommand .r).lastXYDirection ∧
    (ch.applyCommand .l).currentDirection = (ch.applyCommand .l).lastXYDirection ∧
    (ch.applyCommand .r).currentPosition = ch.currentPosition ∧
    (ch.applyCommand .l).currentPosition = ch.currentPosition ∧
    isXYDirection (ch.applyCommand .r).currentDirection = true ∧
    isXYDirection (ch.applyCommand .l).currentDirection = true := by
  obtain ⟨ip, idir, cp, cd, lx⟩ := ch
  cases lx
  case Up => simp [isXYDirection] at h
  case Down => simp [isXYDirection] at h
  all_goals exact ⟨rfl, rfl, rfl, rfl, rfl, rfl, rfl, rfl⟩

/-- Witness for C2 at the state constructed at (1,2,3) facing East: a right
turn rotates the last horizontal facing to South and the current facing
follows it. -/
theorem C2_turn_semantics_witness :
    isXYDirection (Chayndrayan.construct (some ⟨1, 2, 3⟩) (some .East)).lastXYDirection
        = true ∧
    ((Chayndrayan.construct (some ⟨1, 2, 3⟩) (some .East)).applyCommand
        .r).lastXYDirection = .South :=
  ⟨by decide,
   (C2_turn_semantics (Chayndrayan.construct (some ⟨1, 2, 3⟩) (some .East))
      (by decide)).1⟩

/-- C6: the initial snapshot recorded at construction is never modified: for
every craft state and command sequence, `initialPosition` and
`initialDirection` are unchanged by `move` (in the embedding the current
position is a separate value, so mutating it cannot alias the snapshot). -/
theorem C6_initial_state_immutable (ch : Chayndrayan) (cs : List Commands) :
    (ch.move cs).initialPosition = ch.initialPosition ∧
    (ch.move cs).initialDirection = ch.initialDirection := by
  induction cs generalizing ch with
  | nil => exact ⟨rfl, rfl⟩
  | cons c cs ih =>
      have hstep : (ch.applyCommand c).initialPosition = ch.initialPosition ∧
          (ch.applyCommand c).initialDirection = ch.initialDirection := by
        cases c <;> exact ⟨rfl, rfl⟩
      rw [Chayndrayan.move_cons]
      exact ⟨(ih (ch.applyCommand c)).1.trans hstep.1,
        (ih (ch.applyCommand c)).2.trans hstep.2⟩

/-- C8: from every craft state whose last horizontal facing is horizontal,
four consecutive turn-left commands (or four consecutive turn-rights) bring
the facing to the state's last horizontal facing — its starting horizontal
value — and in particular leave the facing unchanged whenever the current
facing is that horizontal value (cyclic law, period 4). -/
theorem C8_four_turns_identity (ch : Chayndrayan)
    (h : isXYDirection ch.lastXYDirection = true) :
    (ch.move [.l, .l, .l, .l]).currentDirection = ch.lastXYDirection ∧
    (ch.move [.r, .r, .r, .r]).currentDirection = ch.lastXYDirection ∧
    (ch.move [.l, .l, .l, .l]).lastXYDirection = ch.lastXYDirection ∧
    (ch.move [.r, .r, .r, .r]).lastXYDirection = ch.lastXYDirection ∧
    (ch.currentDirection = ch.lastXYDirection →
      (ch.move [.l, .l, .l, .l]).currentDirection = ch.currentDirection ∧
      (ch.move [.r, .r, .r, .r]).currentDirection = ch.currentDirection) := by
  obtain ⟨ip, idir, cp, cd, lx⟩ := ch
  cases lx
  case Up => simp [isXYDirection] at h
  case Down => simp [isXYDirection] at h
  all_goals
    exact ⟨rfl, rfl, rfl, rfl, fun hcd => ⟨hcd.symm, hcd.symm⟩⟩

/-- Witness for C8 at the default-constructed state (facing North): four left
turns and four right turns both restore the facing North. -/
theorem C8_four_turns_identity_witness :
    isXYDirection (Chayndrayan.construct none none).lastXYDirection = true ∧
    ((Chayndrayan.construct none none).move [.l, .l, .l, .l]).currentDirection
        = (Chayndrayan.construct none none).currentDirection ∧
    ((Chayndrayan.construct none none).move [.r, .r, .r, .r]).currentDirection
        = (Chayndrayan.construct none none).currentDirection :=
  ⟨by decide,
   (C8_four_turns_identity (Chayndrayan.construct none none) (by decide)).2.2.2.2
     (by decide)⟩

/-- C9 counterexample: the `src/main.ts` move and the final `src/unnamed/part_001`
move are not behavioral duplicates — started at (0,0,0) facing South, the
single command [f] puts the `src/main.ts` craft at (0,1,0) but the final craft
at (0,-1,0), so the claimed equality fails at this concrete input. -/
theorem C9_counterexample :
    ¬ (((ChayndrayanMain.construct (some ⟨0, 0, 0⟩) (some .South)).move
          [.f]).currentPosition =
        ((Chayndrayan.construct (some ⟨0, 0, 0⟩) (some .South)).move
          [.f]).currentPosition) := by
  decide

theorem fb_step_agreement (chm : ChayndrayanMain) (ch : Chayndrayan) (c : Commands)
    (hc : c = .f ∨ c = .b)
    (hd : ch.currentDirection = .North ∨ ch.currentDirection = .East ∨
      ch.currentDirection = .Up)
    (hpos : chm.currentPosition = ch.currentPosition)
    (hdir : chm.currentDirection = ch.currentDirection) :
    (chm.applyCommand c).currentPosition = (ch.applyCommand c).currentPosition ∧
    (chm.applyCommand c).currentDirection = ch.currentDirection ∧
    (ch.applyCommand c).currentDirection = ch.currentDirection := by
  obtain ⟨mip, midir, mcp, mcd⟩ := chm
  obtain ⟨ip, idir, cp, cd, lx⟩ := ch
  simp only at hpos hdir hd
  subst hpos hdir
  rcases hc with hc | hc <;> subst hc <;>
    rcases hd with hd | hd | hd <;> subst hd <;>
      simp [ChayndrayanMain.applyCommand, Chayndrayan.applyCommand]

theorem fb_move_agreement (cs : List Commands)
    (hcs : ∀ c ∈ cs, c = .f ∨ c = .b)
    (chm : ChayndrayanMain) (ch : Chayndrayan)
    (hd : ch.currentDirection = .North ∨ ch.currentDirection = .East ∨
      ch.currentDirection = .Up)
    (hpos : chm.currentPosition = ch.currentPosition)
    (hdir : chm.currentDirection = ch.currentDirection) :
    (chm.move cs).currentPosition = (ch.move cs).currentPosition := by
  induction cs generalizing chm ch with
  | nil => exact hpos
  | cons c cs ih =>
      have hc : c = .f ∨ c = .b := hcs c (List.mem_cons_self c cs)
      have hstep := fb_step_agreement chm ch c hc hd hpos hdir
      have hd' : (ch.applyCommand c).currentDirection = .North ∨
          (ch.applyCommand c).currentDirection = .East ∨
          (ch.applyCommand c).currentDirection = .Up := by
        rw [hstep.2.2]; exact hd
      exact ih (fun c' hc' => hcs c' (List.mem_cons_of_mem c hc'))
        (chm.applyCommand c) (ch.applyCommand c) hd'
        hstep.1 (hstep.2.1.trans hstep.2.2.symm)

/-- C9 amended: restricted to starting facings North, East or Up (the facings
whose axis branch carries no negated sign in the final implementation), the
`src/main.ts` move and the final move agree on the final position for every
starting position and every sequence of f and b commands; for South, West and
Down they differ, as the counterexample shows for South. -/
theorem C9_amended_fb_equivalence (p : Position) (d : Direction)
    (hd : d = .North ∨ d = .East ∨ d = .Up)
    (cs : List Commands) (hcs : ∀ c ∈ cs, c = .f ∨ c = .b) :
    ((ChayndrayanMain.construct (some p) (some d)).move cs).currentPosition =
      ((Chayndrayan.construct (some p) (some d)).move cs).currentPosition := by
  exact fb_move_agreement cs hcs
    (ChayndrayanMain.construct (some p) (some d))
    (Chayndrayan.construct (some p) (some d))
    hd rfl rfl

/-- Witness for the amended C9: starting at (2,3,4) facing East, both
implementations send [f, b, f] to the same final position. -/
theorem C9_amended_fb_equivalence_witness :
    ((.East : Direction) = .North ∨ (.East : Direction) = .East ∨
      (.East : Direction) = .Up) ∧
    ((ChayndrayanMain.construct (some ⟨2, 3, 4⟩) (some .East)).move
        [.f, .b, .f]).currentPosition =
      ((Chayndrayan.construct (some ⟨2, 3, 4⟩) (some .East)).move
        [.f, .b, .f]).currentPosition :=
  ⟨by decide,
   C9_amended_fb_equivalence ⟨2, 3, 4⟩ .East (by decide) [.f, .b, .f]
     (by decide)⟩


theorem lastXY_inv_construct (p? : Option Position) (d? : Option Direction) :
    isXYDirection (Chayndrayan.construct p? d?).lastXYDirection = true ∧
    (isXYDirection (Chayndrayan.construct p? d?).currentDirection = true →
      (Chayndrayan.construct p? d?).lastXYDirection =
        (Chayndrayan.construct p? d?).currentDirection) := by
  cases d? with
  | none => exact ⟨rfl, fun _ => rfl⟩
  | some d =>
      cases d <;>
        first
          | exact ⟨rfl, fun _ => rfl⟩
          | exact ⟨rfl, fun hco => nomatch hco⟩

theorem lastXY_inv_step (ch : Chayndrayan) (c : Commands)
    (h1 : isXYDirection ch.lastXYDirection = true)
    (h2 : isXYDirection ch.currentDirection = true →
      ch.lastXYDirection = ch.currentDirection) :
    isXYDirection (ch.applyCommand c).lastXYDirection = true ∧
    (isXYDirection (ch.applyCommand c).currentDirection = true →
      (ch.applyCommand c).lastXYDirection = (ch.applyCommand c).currentDirection) := by
  obtain ⟨ip, idir, cp, cd, lx⟩ := ch
  cases c with
  | f => exact ⟨h1, h2⟩
  | b => exact ⟨h1, h2⟩
  | l =>
      cases lx
      case Up => simp [isXYDirection] at h1
      case Down => simp [isXYDirection] at h1
      all_goals exact ⟨rfl, fun _ => rfl⟩
  | r =>
      cases lx
      case Up => simp [isXYDirection] at h1
      case Down => simp [isXYDirection] at h1
      all_goals exact ⟨rfl, fun _ => rfl⟩
  | u => exact ⟨h1, fun hco => nomatch hco⟩
  | d => exact ⟨h1, fun hco => nomatch hco⟩

theorem lastXY_inv_move (cs : List Commands) (ch : Chayndrayan)
    (h1 : isXYDirection ch.lastXYDirection = true)
    (h2 : isXYDirection ch.currentDirection = true →
      ch.lastXYDirection = ch.currentDirection) :
    isXYDirection (ch.move cs).lastXYDirection = true ∧
    (isXYDirection (ch.move cs).currentDirection = true →
      (ch.move cs).lastXYDirection = (ch.move cs).currentDirection) := by
  induction cs generalizing ch with
  | nil => exact ⟨h1, h2⟩
  | cons c cs ih =>
      have hstep := lastXY_inv_step ch c h1 h2
      rw [Chayndrayan.move_cons]
      exact ih (ch.applyCommand c) hstep.1 hstep.2

theorem isXYDirection_mem_clockWise (d : Direction)
    (h : isXYDirection d = true) : d ∈ clockWiseDirections := by
  cases d <;> simp_all [isXYDirection, clockWiseDirections]

/-- C10: after construction (with any optional arguments) and any command
sequence, `lastXYDirection` is one of the four horizontal values — so it is a
member of the clockwise array and the turn handler's index lookup succeeds —
and whenever the current facing is horizontal, `lastXYDirection` equals the
current facing. -/
theorem C10_lastXY_horizontal_invariant (p? : Option Position)
    (d? : Option Direction) (cs : List Commands) :
    isXYDirection ((Chayndrayan.construct p? d?).move cs).lastXYDirection = true ∧
    ((Chayndrayan.construct p? d?).move cs).lastXYDirection ∈ clockWiseDirections ∧
    (isXYDirection ((Chayndrayan.construct p? d?).move cs).currentDirection = true →
      ((Chayndrayan.construct p? d?).move cs).lastXYDirection =
        ((Chayndrayan.construct p? d?).move cs).currentDirection) := by
  have hinit := lastXY_inv_construct p? d?
  have hmove := lastXY_inv_move cs (Chayndrayan.construct p? d?) hinit.1 hinit.2
  exact ⟨hmove.1, isXYDirection_mem_clockWise _ hmove.1, hmove.2⟩

/-- Witness for C10: constructed facing Down and pitched turns [u, l], the
invariant instance evaluates on a concrete run. -/
theorem C10_lastXY_horizontal_invariant_witness :
    isXYDirection ((Chayndrayan.construct (some ⟨0, 0, 0⟩) (some .Down)).move
        [.u, .l]).lastXYDirection = true ∧
    ((Chayndrayan.construct (some ⟨0, 0, 0⟩) (some .Down)).move
        [.u, .l]).lastXYDirection ∈ clockWiseDirections :=
  ⟨(C10_lastXY_horizontal_invariant (some ⟨0, 0, 0⟩) (some .Down) [.u, .l]).1,
   (C10_lastXY_horizontal_invariant (some ⟨0, 0, 0⟩) (some .Down) [.u, .l]).2.1⟩

end Chandrayaan
